import Mathlib

/-! # The driver of the CUDA / sequential Sobel edge-detection comparison

A shallow embedding of `DVA336_Proj_Cuda/main.cpp`.  The driver is a straight line of
calls into collaborators (OpenCV, the C library, the clock, and the functions declared in
`img_seq.h`, `img_cuda.h` and `img_helper.h`).  A run is modelled by the sequence of those
calls, each with the values of its arguments, under the assumption that every call
returns.  The collaborators whose results the driver needs are fields of `Env`.
-/

namespace SobelDriver

/-! ## Data -/

/-- One BGR pixel of a decoded colour image. -/
structure Pixel where
  b : Nat
  g : Nat
  r : Nat

/-- The part of `cv::Mat` the driver touches: its dimensions and its pixel grid
(row, then column). -/
structure Mat where
  rows : Nat
  cols : Nat
  data : Nat → Nat → Pixel

/-- A heap block of `int16_t` cells.  A null pointer and a zero-sized block are both
the block with no cells. -/
abbrev Buf := List Int

/-- Value of a C `int` (32 bit, two's complement) holding the mathematical integer `z`. -/
def wrapInt32 (z : Int) : Int := (z + 2 ^ 31) % 2 ^ 32 - 2 ^ 31

/-- Value of an `int16_t` holding the mathematical integer `z`. -/
def wrapInt16 (z : Int) : Int := (z + 2 ^ 15) % 2 ^ 16 - 2 ^ 15

/-- `calloc(count, size)` for a `count` of type `int`: a block of `count` zeroed cells.
A negative `count` converts to a `size_t` above `2^63`, whose product with `size = 2`
is not representable, so `calloc` returns the null pointer: no cells
(`Int.toNat` of a negative number is `0`). -/
def calloc (count : Int) (_size : Nat) : Buf := List.replicate count.toNat 0

/-- OpenCV constant `CV_LOAD_IMAGE_COLOR`. -/
def CV_LOAD_IMAGE_COLOR : Int := 1

/-- OpenCV constant `CV_IMWRITE_PNG_COMPRESSION`. -/
def CV_IMWRITE_PNG_COMPRESSION : Int := 16

/-- `sizeof(int16_t)`. -/
def sizeof_int16_t : Nat := 2

/-- The local variables of `main` that name an image or a buffer. -/
inductive Var where
  | src
  | seq_image
  | seq_src
  | cuda_image
  | cuda_src
  deriving DecidableEq, Repr

/-- One call made by `main`, with the variables it is applied to and their values at
the moment of the call. -/
inductive Event where
  | init_cuda
  | imread (path : String) (flags : Int)
  | clone (source target : Var) (value : Mat)
  | calloc (target : Var) (count : Int) (size : Nat)
  | printf (fmt : String) (arg : Option ℚ)
  | now
  | cuda_edge_detection (bufVar : Var) (buf : Buf) (imgVar : Var) (img : Mat)
  | seq_edge_detection (bufVar : Var) (buf : Buf) (imgVar : Var) (img : Mat)
  | compareImages (aVar : Var) (a : Buf) (bVar : Var) (b : Buf) (count : Int)
  | makeImage (bufVar : Var) (buf : Buf) (imgVar : Var) (img : Mat)
  | imshow (title : String) (imgVar : Var) (img : Mat)
  | imwrite (path : String) (imgVar : Var) (img : Mat) (params : List Int)
  | waitKey
  | getchar
  | free (v : Var)

/-- The collaborators whose results `main` depends on.  An engine receives a pointer to a
buffer and a pointer to an image and may overwrite both; it returns their contents after
the call.  It writes through a raw `int16_t *`, so it cannot change the size of the
block: that is the `_size` field. -/
structure Env where
  imread : String → Int → Mat
  clock : Nat → ℚ
  cuda_edge_detection : Buf → Mat → Buf × Mat
  cuda_size : ∀ b m, (cuda_edge_detection b m).1.length = b.length
  seq_edge_detection : Buf → Mat → Buf × Mat
  seq_size : ∀ b m, (seq_edge_detection b m).1.length = b.length
  makeImage : Buf → Mat → Mat

/-- What is observable of one run of `main`. -/
structure Run where
  trace : List Event
  exit : Int
  src : Mat

/-! ## The driver -/

/-- The function `main` of `main.cpp`, statement by statement.  The `k`-th call of
`high_resolution_clock::now()` returns `env.clock k`; a `duration<float>` is taken as an
exact rational.  Falling off the end of `main` returns `0`. -/
def main (env : Env) : Run :=
  let src := env.imread "img\\input\\clock_S.jpg" CV_LOAD_IMAGE_COLOR
  let elements : Int := wrapInt32 ((src.cols : Int) * (src.rows : Int))
  let seq_image := src
  let seq_src := calloc elements sizeof_int16_t
  let cuda_image := src
  let cuda_src := calloc elements sizeof_int16_t
  -- CUDA
  let start := env.clock 0
  let cudaOut := env.cuda_edge_detection cuda_src cuda_image
  let stop := env.clock 1
  let execTime := stop - start
  let speedup := execTime
  -- SEQ
  let start2 := env.clock 2
  let seqOut := env.seq_edge_detection seq_src seq_image
  let stop2 := env.clock 3
  let execTime2 := stop2 - start2
  -- render
  let seq_image2 := env.makeImage seqOut.1 seqOut.2
  let cuda_image2 := env.makeImage cudaOut.1 cudaOut.2
  { trace :=
      [ Event.init_cuda,
        Event.imread "img\\input\\clock_S.jpg" CV_LOAD_IMAGE_COLOR,
        Event.clone Var.src Var.seq_image seq_image,
        Event.calloc Var.seq_src elements sizeof_int16_t,
        Event.clone Var.src Var.cuda_image cuda_image,
        Event.calloc Var.cuda_src elements sizeof_int16_t,
        Event.printf ".: CUDA :.\n" none,
        Event.now,
        Event.cuda_edge_detection Var.cuda_src cuda_src Var.cuda_image cuda_image,
        Event.now,
        Event.printf "CUDA Exec time:       %f\n\n" (some execTime),
        Event.printf ".: SEQ  :.\n" none,
        Event.now,
        Event.seq_edge_detection Var.seq_src seq_src Var.seq_image seq_image,
        Event.now,
        Event.printf "SEQ  Exec time:       %f\n\n" (some execTime2),
        Event.printf "CUDA to SEQ speed up  %f\n" (some (execTime2 / speedup)),
        Event.compareImages Var.cuda_src cudaOut.1 Var.seq_src seqOut.1 elements,
        Event.makeImage Var.seq_src seqOut.1 Var.seq_image seqOut.2,
        Event.makeImage Var.cuda_src cudaOut.1 Var.cuda_image cudaOut.2,
        Event.imshow "Seq edges" Var.seq_image seq_image2,
        Event.imshow "Cuda edges" Var.cuda_image cuda_image2,
        Event.imwrite "img\\output\\output.png" Var.seq_image seq_image2
          [CV_IMWRITE_PNG_COMPRESSION, 9],
        Event.waitKey,
        Event.getchar,
        Event.printf "Done\n" none,
        Event.free Var.seq_src,
        Event.free Var.cuda_src ]
    exit := 0
    src := src }

/-! ## Reading a trace -/

/-- Number of events of a trace that satisfy `p`. -/
def occurrences (p : Event → Bool) : List Event → Nat
  | [] => 0
  | e :: es => (if p e then 1 else 0) + occurrences p es

/-- Position of the first event that satisfies `p` (the length of the trace if none). -/
def firstAt (p : Event → Bool) : List Event → Nat
  | [] => 0
  | e :: es => if p e then 0 else firstAt p es + 1

/-- Positions of all events that satisfy `p`, counted from `start`. -/
def positions (p : Event → Bool) (start : Nat) : List Event → List Nat
  | [] => []
  | e :: es => (if p e then [start] else []) ++ positions p (start + 1) es

/-- The events strictly between positions `i` and `j`. -/
def between (i j : Nat) (t : List Event) : List Event := (t.drop (i + 1)).take (j - i - 1)

def Event.isInitCuda : Event → Bool
  | Event.init_cuda => true
  | _ => false

def Event.isNow : Event → Bool
  | Event.now => true
  | _ => false

def Event.isCuda : Event → Bool
  | Event.cuda_edge_detection _ _ _ _ => true
  | _ => false

def Event.isSeq : Event → Bool
  | Event.seq_edge_detection _ _ _ _ => true
  | _ => false

def Event.isCompare : Event → Bool
  | Event.compareImages _ _ _ _ _ => true
  | _ => false

def Event.isMakeImage : Event → Bool
  | Event.makeImage _ _ _ _ => true
  | _ => false

def Event.isImshow : Event → Bool
  | Event.imshow _ _ _ => true
  | _ => false

def Event.isImwrite : Event → Bool
  | Event.imwrite _ _ _ _ => true
  | _ => false

/-- Calls into the parallel execution domain, the functions of `img_cuda.h`. -/
def Event.isParallelDomain : Event → Bool
  | Event.init_cuda => true
  | Event.cuda_edge_detection _ _ _ _ => true
  | _ => false

/-- The messages `main` itself prints, in order. -/
def messages : List Event → List (String × Option ℚ)
  | [] => []
  | Event.printf fmt arg :: es => (fmt, arg) :: messages es
  | _ :: es => messages es

/-- What `main` reports by itself: its messages and its exit status. -/
def report (r : Run) : List (String × Option ℚ) × Int := (messages r.trace, r.exit)

/-- The source image as decoded by the run. -/
def decoded (env : Env) : Mat := env.imread "img\\input\\clock_S.jpg" CV_LOAD_IMAGE_COLOR

/-- Measured duration of the parallel engine. -/
def cudatime (env : Env) : ℚ := env.clock 1 - env.clock 0

/-- Measured duration of the sequential engine. -/
def seqtime (env : Env) : ℚ := env.clock 3 - env.clock 2

/-! ## The equivalence checker, from the specification -/

/-- Modelled from the spec: the Comparison Result of §3 and §4.4, a boolean
"equivalent" flag plus a mismatch count.  The type `compareImages` of `img_helper.h`
returns is not in the sources. -/
structure Comparison where
  equivalent : Bool
  mismatches : Nat
  deriving DecidableEq, Repr

/-- Modelled from the spec: the one failure of the Equivalence Checker (§4.4, §7). -/
inductive CompareError where
  | DimensionMismatchError
  deriving DecidableEq, Repr

/-- Number of positions below `n` at which two buffers hold different values. -/
def mismatchCount : Nat → Buf → Buf → Nat
  | 0, _, _ => 0
  | _ + 1, [], _ => 0
  | _ + 1, _ :: _, [] => 0
  | n + 1, x :: xs, y :: ys => (if x = y then 0 else 1) + mismatchCount n xs ys

/-- Modelled from the spec: `compareImages` of `img_helper.h`, whose body is not in the
sources.  §4.4: given two Edge Buffers of equal dimensions it compares every cell for
exact equality and returns the flag and the mismatch count; it fails with
`DimensionMismatchError` if the two buffers differ in size.  It has no output of its
own. -/
def compareImages (a b : Buf) (count : Int) : Except CompareError Comparison :=
  if a.length ≠ b.length then Except.error CompareError.DimensionMismatchError
  else
    let n := mismatchCount count.toNat a b
    Except.ok { equivalent := n == 0, mismatches := n }

/-! ## The two engines, from the specification -/

/-- Modelled from the spec: the fixed gradient operator of §4.1 and §4.2, whose formula,
kernel weights, combination rule and boundary policy the specification leaves open.
`formula` derives the intensity of a pixel; `kx` and `ky` are the two 3×3 kernels
(row, column); `combine` joins the two partial gradients; `border W H I x y` is the value
the boundary policy gives the border cell `(x, y)` of a `W`×`H` intensity grid `I`. -/
structure Operator where
  formula : Pixel → Int
  kx : Nat → Nat → Int
  ky : Nat → Nat → Int
  combine : Int → Int → Int
  border : Nat → Nat → (Nat → Nat → Int) → Nat → Nat → Int

/-- Modelled from the spec: the Intensity Extractor of §4.1, one scalar per pixel by the
fixed formula; the grid is indexed by row, then column. -/
def extract (op : Operator) (img : Mat) : Nat → Nat → Int :=
  fun y x => op.formula (img.data y x)

/-- Modelled from the spec: §4.2, the sum of the products of the kernel weights and the
3×3 neighbourhood of the intensity sample at column `x`, row `y`. -/
def convolve (k : Nat → Nat → Int) (I : Nat → Nat → Int) (x y : Nat) : Int :=
  ((List.range 3).map fun i =>
    ((List.range 3).map fun j => k i j * I (y + i - 1) (x + j - 1)).sum).sum

/-- A pixel is interior when its whole 3×3 window lies inside the grid. -/
def interior (W H x y : Nat) : Bool :=
  decide (1 ≤ x) && decide (x + 1 < W) && decide (1 ≤ y) && decide (y + 1 < H)

/-- Modelled from the spec: the value of the output cell at column `x`, row `y` (§4.2):
the combined gradient for an interior pixel, the boundary policy for a border pixel,
stored in a 16-bit signed cell. -/
def cellValue (op : Operator) (img : Mat) (x y : Nat) : Int :=
  let I := extract op img
  wrapInt16
    (if interior img.cols img.rows x y then
      op.combine (convolve op.kx I x y) (convolve op.ky I x y)
    else op.border img.cols img.rows I x y)

/-- Modelled from the spec: the Sequential Edge Engine of §4.2; the body of
`seq_edge_detection` (`img_seq.h`) is not in the sources.  One thread visits every pixel
once, row by row, and stores its cell; the image is left as it is. -/
def seq_edge_detection (op : Operator) (buf : Buf) (img : Mat) : Buf × Mat :=
  ((List.range img.rows).foldl
      (fun b y => (List.range img.cols).foldl
        (fun b x => b.set (y * img.cols + x) (cellValue op img x y)) b)
      buf,
    img)

/-- Modelled from the spec: the partitioning of §4.3, a fixed tile of `bx`×`by`
execution units; `bx = by = 1` is one unit per pixel. -/
structure Tiling where
  bx : Nat
  by_ : Nat

/-- One execution unit of the parallel engine: its tile and its place in the tile. -/
structure ExecUnit where
  blockX : Nat
  blockY : Nat
  threadX : Nat
  threadY : Nat
  deriving DecidableEq, Repr

/-- Number of tiles of size `b` needed to cover `n` cells. -/
def tilesFor (n b : Nat) : Nat := (n + b - 1) / b

/-- All execution units launched for a `W`×`H` grid. -/
def units (t : Tiling) (W H : Nat) : List ExecUnit :=
  (List.range (tilesFor H t.by_)).flatMap fun blockY =>
    (List.range (tilesFor W t.bx)).flatMap fun blockX =>
      (List.range t.by_).flatMap fun threadY =>
        (List.range t.bx).map fun threadX =>
          { blockX := blockX, blockY := blockY, threadX := threadX, threadY := threadY }

/-- Column owned by a unit. -/
def ExecUnit.x (t : Tiling) (u : ExecUnit) : Nat := u.blockX * t.bx + u.threadX

/-- Row owned by a unit. -/
def ExecUnit.y (t : Tiling) (u : ExecUnit) : Nat := u.blockY * t.by_ + u.threadY

/-- What one unit does: it reads the shared input and writes its own cell, or nothing
when its coordinates fall outside the grid. -/
def runUnit (op : Operator) (t : Tiling) (img : Mat) (b : Buf) (u : ExecUnit) : Buf :=
  if u.x t < img.cols ∧ u.y t < img.rows then
    b.set (u.y t * img.cols + u.x t) (cellValue op img (u.x t) (u.y t))
  else b

/-- Modelled from the spec: the Parallel Edge Engine of §4.3; the body of
`cuda_edge_detection` (`img_cuda.h`) is not in the sources.  The units run in the order
`schedule`, which stands for the interleaving the accelerator happens to choose; each
unit writes only its own cell and the image is left as it is. -/
def cuda_edge_detection (op : Operator) (t : Tiling) (schedule : List ExecUnit)
    (buf : Buf) (img : Mat) : Buf × Mat :=
  (schedule.foldl (runUnit op t img) buf, img)

/-! ## Concrete runs used as examples -/

/-- A 3×3 image whose pixel values grow with the position. -/
def sampleImage : Mat :=
  { rows := 3, cols := 3, data := fun y x => { b := 10 * y + x, g := 3 * x, r := 7 * y } }

/-- An image with no pixels, as `imread` returns for a missing file. -/
def emptyImage : Mat :=
  { rows := 0, cols := 0, data := fun _ _ => { b := 0, g := 0, r := 0 } }

/-- A JPEG of the largest dimensions the format allows. -/
def hugeImage : Mat :=
  { rows := 65535, cols := 65535, data := fun _ _ => { b := 0, g := 0, r := 0 } }

/-- An engine that stores `v` in every cell of its buffer. -/
def fillEngine (v : Int) (b : Buf) (m : Mat) : Buf × Mat := (b.map fun _ => v, m)

/-- A run on image `img` whose parallel engine fills with `c` and whose sequential engine
fills with `s`; the clock reads 0, 2, 5, 11. -/
def sampleEnv (img : Mat) (c s : Int) : Env :=
  { imread := fun _ _ => img
    clock := fun k => if k = 0 then 0 else if k = 1 then 2 else if k = 2 then 5 else 11
    cuda_edge_detection := fillEngine c
    cuda_size := fun b m => by simp [fillEngine]
    seq_edge_detection := fillEngine s
    seq_size := fun b m => by simp [fillEngine]
    makeImage := fun _ m => m }

/-- A Sobel-like operator: intensity is the plain channel sum, the kernels are the Sobel
pair, the gradients are combined by the sum of absolute values, border cells are zero. -/
def sampleOperator : Operator :=
  { formula := fun p => (p.b + p.g + p.r : Nat)
    kx := fun _ j => (j : Int) - 1
    ky := fun i _ => (i : Int) - 1
    combine := fun gx gy => |gx| + |gy|
    border := fun _ _ _ _ _ => 0 }

/-- A list of writes (cell, value) applied to a buffer in order. -/
def applyWrites (b : Buf) (ws : List (Nat × Int)) : Buf :=
  ws.foldl (fun b w => b.set w.1 w.2) b

/-- The value the gradient operator gives the cell with row-major index `k`. -/
def cellAt (op : Operator) (img : Mat) (k : Nat) : Int :=
  cellValue op img (k % img.cols) (k / img.cols)

/-- The writes of the sequential engine, in the order it makes them. -/
def seqWrites (op : Operator) (img : Mat) : List (Nat × Int) :=
  (List.range img.rows).flatMap fun y =>
    (List.range img.cols).map fun x => (y * img.cols + x, cellValue op img x y)

/-- The write of one execution unit, if it makes one. -/
def unitWrites (op : Operator) (t : Tiling) (img : Mat) (u : ExecUnit) : List (Nat × Int) :=
  if u.x t < img.cols ∧ u.y t < img.rows then
    [(u.y t * img.cols + u.x t, cellValue op img (u.x t) (u.y t))]
  else []

/-- Arguments of the first call of `cuda_edge_detection` in a trace. -/
def cudaCall : List Event → Option (Buf × Mat)
  | [] => none
  | Event.cuda_edge_detection _ b _ m :: _ => some (b, m)
  | _ :: es => cudaCall es

/-- Arguments of the first call of `seq_edge_detection` in a trace. -/
def seqCall : List Event → Option (Buf × Mat)
  | [] => none
  | Event.seq_edge_detection _ b _ m :: _ => some (b, m)
  | _ :: es => seqCall es

/-- Arguments of the first call of `compareImages` in a trace. -/
def compareCall : List Event → Option (Buf × Buf × Int)
  | [] => none
  | Event.compareImages _ a _ b n :: _ => some (a, b, n)
  | _ :: es => compareCall es

/-- The element count `main` computes: `src.cols * src.rows` in `int` arithmetic. -/
def elements (env : Env) : Int :=
  wrapInt32 (((decoded env).cols : Int) * ((decoded env).rows : Int))

/-- The block `main` gets from each of its two `calloc` calls. -/
def freshBuffer (env : Env) : Buf := calloc (elements env) sizeof_int16_t

/-- The number printed by the first message with format `fmt`. -/
def printedValue (fmt : String) : List Event → Option ℚ
  | [] => none
  | Event.printf f arg :: es => if f = fmt then arg else printedValue fmt es
  | _ :: es => printedValue fmt es


/-! ## The order of the calls -/

/-- C4: on every run `compareImages` is called exactly once, after the calls of
`cuda_edge_detection` and `seq_edge_detection` and before the first `makeImage`, and its
buffer arguments are `cuda_src` and `seq_src` with the contents the two engines left
in them. -/
theorem compare_once_between_engines_and_render (env : Env) :
    occurrences Event.isCompare (main env).trace = 1 ∧
    firstAt Event.isCuda (main env).trace < firstAt Event.isCompare (main env).trace ∧
    firstAt Event.isSeq (main env).trace < firstAt Event.isCompare (main env).trace ∧
    firstAt Event.isCompare (main env).trace < firstAt Event.isMakeImage (main env).trace ∧
    ∃ cb ci sb si n,
      (main env).trace[firstAt Event.isCuda (main env).trace]? =
        some (Event.cuda_edge_detection Var.cuda_src cb Var.cuda_image ci) ∧
      (main env).trace[firstAt Event.isSeq (main env).trace]? =
        some (Event.seq_edge_detection Var.seq_src sb Var.seq_image si) ∧
      (main env).trace[firstAt Event.isCompare (main env).trace]? =
        some (Event.compareImages Var.cuda_src (env.cuda_edge_detection cb ci).1
          Var.seq_src (env.seq_edge_detection sb si).1 n) := by
  refine ⟨?_, ?_, ?_, ?_,
    freshBuffer env, decoded env, freshBuffer env, decoded env, elements env, ?_, ?_, ?_⟩
  · simp [main, occurrences, Event.isCompare]
  · simp [main, firstAt, Event.isCuda, Event.isCompare]
  · simp [main, firstAt, Event.isSeq, Event.isCompare]
  · simp [main, firstAt, Event.isMakeImage, Event.isCompare]
  · simp [main, firstAt, Event.isCuda, freshBuffer, elements, decoded]
  · simp [main, firstAt, Event.isSeq, freshBuffer, elements, decoded]
  · simp [main, firstAt, Event.isCompare, freshBuffer, elements, decoded]

/-- C7: the two clock readings that bracket the parallel engine enclose the call of
`cuda_edge_detection` and nothing else, that call receives the zeroed buffer and the
untouched clone of the decoded image, `init_cuda` comes before the first reading, the
two readings that bracket the sequential engine enclose exactly the call of
`seq_edge_detection`, the first interval ends before the second begins, and the two
printed durations are the differences of these readings. -/
theorem timed_intervals (env : Env) :
    ∃ a b c d,
      positions Event.isNow 0 (main env).trace = [a, b, c, d] ∧
      between a b (main env).trace =
        [Event.cuda_edge_detection Var.cuda_src (List.replicate (freshBuffer env).length 0)
          Var.cuda_image (decoded env)] ∧
      between c d (main env).trace =
        [Event.seq_edge_detection Var.seq_src (List.replicate (freshBuffer env).length 0)
          Var.seq_image (decoded env)] ∧
      firstAt Event.isInitCuda (main env).trace < a ∧
      b < c ∧
      printedValue "CUDA Exec time:       %f\n\n" (main env).trace =
        some (env.clock 1 - env.clock 0) ∧
      printedValue "SEQ  Exec time:       %f\n\n" (main env).trace =
        some (env.clock 3 - env.clock 2) := by
  refine ⟨7, 9, 12, 14, rfl, ?_, ?_, ?_, by decide, ?_, ?_⟩
  · simp [main, between, freshBuffer, elements, decoded, calloc]
  · simp [main, between, freshBuffer, elements, decoded, calloc]
  · simp [main, firstAt, Event.isInitCuda]
  · simp [main, printedValue]
  · simp [main, printedValue]

/-- C9: on every run there is exactly one `imwrite` call; it goes to
`img\output\output.png` with parameters `[CV_IMWRITE_PNG_COMPRESSION, 9]` and writes
`seq_image` as `makeImage` rendered it from the buffer the sequential engine filled.  The
image rendered from the parallel engine's buffer is shown by `imshow` and is the argument
of no `imwrite`. -/
theorem one_encode_of_sequential_image (env : Env) :
    ∃ sb si cb ci,
      seqCall (main env).trace = some (sb, si) ∧
      cudaCall (main env).trace = some (cb, ci) ∧
      (main env).trace.filter Event.isImwrite =
        [Event.imwrite "img\\output\\output.png" Var.seq_image
          (env.makeImage (env.seq_edge_detection sb si).1 (env.seq_edge_detection sb si).2)
          [CV_IMWRITE_PNG_COMPRESSION, 9]] ∧
      (main env).trace.filter Event.isImshow =
        [Event.imshow "Seq edges" Var.seq_image
          (env.makeImage (env.seq_edge_detection sb si).1 (env.seq_edge_detection sb si).2),
         Event.imshow "Cuda edges" Var.cuda_image
          (env.makeImage (env.cuda_edge_detection cb ci).1
            (env.cuda_edge_detection cb ci).2)] ∧
      (∀ path img params, Event.imwrite path Var.cuda_image img params ∉ (main env).trace) := by
  refine ⟨freshBuffer env, decoded env, freshBuffer env, decoded env, rfl, rfl, ?_, ?_, ?_⟩
  · simp [main, Event.isImwrite, freshBuffer, elements, decoded]
  · simp [main, Event.isImshow, freshBuffer, elements, decoded]
  · intro path img params
    simp [main]

/-! ## The speed-up figure -/

/-- C6: when the measured duration of the parallel engine is not zero, the number printed
as "CUDA to SEQ speed up" is the sequential duration divided by the CUDA duration; for a
positive CUDA duration it is above 1 exactly when the parallel engine took less time. -/
theorem speedup_is_seq_over_cuda (env : Env) (hc : cudatime env ≠ 0) :
    ∃ v, printedValue "CUDA to SEQ speed up  %f\n" (main env).trace = some v ∧
      v = seqtime env / cudatime env ∧
      v * cudatime env = seqtime env ∧
      (0 < cudatime env → (1 < v ↔ cudatime env < seqtime env)) := by
  refine ⟨seqtime env / cudatime env, ?_, rfl, div_mul_cancel₀ _ hc, ?_⟩
  · simp [main, printedValue, seqtime, cudatime]
  · intro hpos
    rw [one_lt_div hpos]

/-- Witness for C6: a run with a CUDA duration of 2 and a sequential duration of 6. -/
theorem speedup_is_seq_over_cuda_witness :
    cudatime (sampleEnv sampleImage 1 0) ≠ 0 ∧
    ∃ v, printedValue "CUDA to SEQ speed up  %f\n" (main (sampleEnv sampleImage 1 0)).trace
        = some v ∧
      v = seqtime (sampleEnv sampleImage 1 0) / cudatime (sampleEnv sampleImage 1 0) ∧
      v * cudatime (sampleEnv sampleImage 1 0) = seqtime (sampleEnv sampleImage 1 0) ∧
      (0 < cudatime (sampleEnv sampleImage 1 0) →
        (1 < v ↔ cudatime (sampleEnv sampleImage 1 0) < seqtime (sampleEnv sampleImage 1 0))) :=
  ⟨by simp [cudatime, sampleEnv],
   speedup_is_seq_over_cuda (sampleEnv sampleImage 1 0) (by simp [cudatime, sampleEnv])⟩

/-! ## Buffers and their sizes -/

/-- A product of two dimensions that fits a C `int` is not changed by `int` arithmetic. -/
lemma elements_eq (env : Env)
    (h : (decoded env).cols * (decoded env).rows ≤ 2 ^ 31 - 1) :
    elements env = (((decoded env).cols * (decoded env).rows : Nat) : Int) := by
  unfold elements wrapInt32
  rw [← Nat.cast_mul]
  generalize (decoded env).cols * (decoded env).rows = n at h
  omega

/-- Each `calloc` of a run on an image that fits gives `W * H` zeroed cells. -/
lemma freshBuffer_eq (env : Env)
    (h : (decoded env).cols * (decoded env).rows ≤ 2 ^ 31 - 1) :
    freshBuffer env = List.replicate ((decoded env).cols * (decoded env).rows) 0 := by
  unfold freshBuffer calloc
  rw [elements_eq env h, Int.toNat_ofNat]

/-- C3: for a decoded image of width `W` and height `H` with `W * H ≤ 2^31 - 1`, both
`calloc` calls ask for `W * H` cells, the buffer each engine is handed is `W * H` zeros,
the count passed to `compareImages` is `W * H`, and the two buffers passed to it both have
`W * H` cells, so the checker of §4.4 does not fail with `DimensionMismatchError`. -/
theorem buffers_match_image (env : Env)
    (h : (decoded env).cols * (decoded env).rows ≤ 2 ^ 31 - 1) :
    Event.calloc Var.seq_src (((decoded env).cols * (decoded env).rows : Nat) : Int)
      sizeof_int16_t ∈ (main env).trace ∧
    Event.calloc Var.cuda_src (((decoded env).cols * (decoded env).rows : Nat) : Int)
      sizeof_int16_t ∈ (main env).trace ∧
    seqCall (main env).trace =
      some (List.replicate ((decoded env).cols * (decoded env).rows) 0, decoded env) ∧
    cudaCall (main env).trace =
      some (List.replicate ((decoded env).cols * (decoded env).rows) 0, decoded env) ∧
    ∃ a b,
      compareCall (main env).trace =
        some (a, b, (((decoded env).cols * (decoded env).rows : Nat) : Int)) ∧
      a.length = (decoded env).cols * (decoded env).rows ∧
      b.length = (decoded env).cols * (decoded env).rows ∧
      compareImages a b (((decoded env).cols * (decoded env).rows : Nat) : Int) ≠
        Except.error CompareError.DimensionMismatchError := by
  have he := elements_eq env h
  have hb := freshBuffer_eq env h
  have hseq : seqCall (main env).trace = some (freshBuffer env, decoded env) := rfl
  have hcuda : cudaCall (main env).trace = some (freshBuffer env, decoded env) := rfl
  have hcmp : compareCall (main env).trace =
      some ((env.cuda_edge_detection (freshBuffer env) (decoded env)).1,
        (env.seq_edge_detection (freshBuffer env) (decoded env)).1, elements env) := rfl
  have hc1 : Event.calloc Var.seq_src (elements env) sizeof_int16_t ∈ (main env).trace := by
    simp [main, elements, decoded]
  have hc2 : Event.calloc Var.cuda_src (elements env) sizeof_int16_t ∈ (main env).trace := by
    simp [main, elements, decoded]
  have hla : (env.cuda_edge_detection (freshBuffer env) (decoded env)).1.length =
      (decoded env).cols * (decoded env).rows := by
    rw [env.cuda_size, hb, List.length_replicate]
  have hlb : (env.seq_edge_detection (freshBuffer env) (decoded env)).1.length =
      (decoded env).cols * (decoded env).rows := by
    rw [env.seq_size, hb, List.length_replicate]
  rw [he] at hc1 hc2 hcmp
  rw [hb] at hseq hcuda
  refine ⟨hc1, hc2, hseq, hcuda, _, _, hcmp, hla, hlb, ?_⟩
  simp [compareImages, hla, hlb]

/-- Witness for C3: the 3×3 sample image. -/
theorem buffers_match_image_witness :
    (decoded (sampleEnv sampleImage 1 0)).cols * (decoded (sampleEnv sampleImage 1 0)).rows
      ≤ 2 ^ 31 - 1 ∧
    cudaCall (main (sampleEnv sampleImage 1 0)).trace =
      some (List.replicate ((decoded (sampleEnv sampleImage 1 0)).cols *
        (decoded (sampleEnv sampleImage 1 0)).rows) 0, decoded (sampleEnv sampleImage 1 0)) :=
  ⟨by decide, (buffers_match_image (sampleEnv sampleImage 1 0) (by decide)).2.2.2.1⟩

/-! ## An empty image -/

/-- C2, as stated, fails: on a run whose decoded image is empty, `main` calls
`cuda_edge_detection` and `seq_edge_detection` once each, on a buffer with no cells, and
then `compareImages` with count `0`. -/
theorem empty_image_still_runs_engines :
    (decoded (sampleEnv emptyImage 1 0)).rows = 0 ∧
    (decoded (sampleEnv emptyImage 1 0)).cols = 0 ∧
    occurrences Event.isCuda (main (sampleEnv emptyImage 1 0)).trace = 1 ∧
    occurrences Event.isSeq (main (sampleEnv emptyImage 1 0)).trace = 1 ∧
    occurrences Event.isCompare (main (sampleEnv emptyImage 1 0)).trace = 1 ∧
    cudaCall (main (sampleEnv emptyImage 1 0)).trace = some ([], emptyImage) ∧
    seqCall (main (sampleEnv emptyImage 1 0)).trace = some ([], emptyImage) ∧
    compareCall (main (sampleEnv emptyImage 1 0)).trace = some ([], [], 0) := by
  refine ⟨rfl, rfl, ?_, ?_, ?_, ?_, ?_, ?_⟩
  · simp [main, occurrences, Event.isCuda]
  · simp [main, occurrences, Event.isSeq]
  · simp [main, occurrences, Event.isCompare]
  · simp [main, cudaCall, sampleEnv, emptyImage, calloc, wrapInt32]
  · simp [main, seqCall, sampleEnv, emptyImage, calloc, wrapInt32]
  · simp [main, compareCall, sampleEnv, emptyImage, calloc, wrapInt32, fillEngine]

/-- C2, amended: `main` has no check of the decoded image.  When the image has zero width
or zero height the element count is `0`, and `main` still calls `cuda_edge_detection`,
then `seq_edge_detection`, each once with a buffer of no cells and its clone of the empty
image, and then `compareImages` once, with two buffers of no cells and count `0`. -/
theorem empty_image_not_checked (env : Env)
    (h : (decoded env).cols = 0 ∨ (decoded env).rows = 0) :
    elements env = 0 ∧
    occurrences Event.isCuda (main env).trace = 1 ∧
    occurrences Event.isSeq (main env).trace = 1 ∧
    occurrences Event.isCompare (main env).trace = 1 ∧
    firstAt Event.isCuda (main env).trace < firstAt Event.isSeq (main env).trace ∧
    firstAt Event.isSeq (main env).trace < firstAt Event.isCompare (main env).trace ∧
    cudaCall (main env).trace = some ([], decoded env) ∧
    seqCall (main env).trace = some ([], decoded env) ∧
    compareCall (main env).trace = some ([], [], 0) := by
  have hz : (decoded env).cols * (decoded env).rows = 0 := by
    rcases h with h | h <;> simp [h]
  have hle : (decoded env).cols * (decoded env).rows ≤ 2 ^ 31 - 1 := by omega
  have he : elements env = 0 := by rw [elements_eq env hle, hz]; rfl
  have hb : freshBuffer env = [] := by rw [freshBuffer_eq env hle, hz]; rfl
  have hseq : seqCall (main env).trace = some (freshBuffer env, decoded env) := rfl
  have hcuda : cudaCall (main env).trace = some (freshBuffer env, decoded env) := rfl
  have hcmp : compareCall (main env).trace =
      some ((env.cuda_edge_detection (freshBuffer env) (decoded env)).1,
        (env.seq_edge_detection (freshBuffer env) (decoded env)).1, elements env) := rfl
  have hla : (env.cuda_edge_detection [] (decoded env)).1 = [] :=
    List.length_eq_zero.mp (by rw [env.cuda_size]; rfl)
  have hlb : (env.seq_edge_detection [] (decoded env)).1 = [] :=
    List.length_eq_zero.mp (by rw [env.seq_size]; rfl)
  rw [hb] at hseq hcuda hcmp
  rw [he, hla, hlb] at hcmp
  refine ⟨he, ?_, ?_, ?_, ?_, ?_, hcuda, hseq, hcmp⟩
  · simp [main, occurrences, Event.isCuda]
  · simp [main, occurrences, Event.isSeq]
  · simp [main, occurrences, Event.isCompare]
  · simp [main, firstAt, Event.isCuda, Event.isSeq]
  · simp [main, firstAt, Event.isSeq, Event.isCompare]

/-- Witness for the amended C2: the run on the empty image. -/
theorem empty_image_not_checked_witness :
    ((decoded (sampleEnv emptyImage 1 0)).cols = 0 ∨
      (decoded (sampleEnv emptyImage 1 0)).rows = 0) ∧
    elements (sampleEnv emptyImage 1 0) = 0 :=
  ⟨Or.inl rfl, (empty_image_not_checked (sampleEnv emptyImage 1 0) (Or.inl rfl)).1⟩

/-! ## What the driver reports -/

/-- C5, as stated, fails: of two runs with the same clock readings, one whose engines
leave different buffers (the checker of §4.4 counts nine mismatches) and one whose
engines leave identical buffers, `main` reports the same messages and exit status. -/
theorem mismatch_not_in_report :
    (∃ a b n, compareCall (main (sampleEnv sampleImage 1 0)).trace = some (a, b, n) ∧
      a ≠ b ∧
      compareImages a b n = Except.ok { equivalent := false, mismatches := 9 }) ∧
    (∃ a b n, compareCall (main (sampleEnv sampleImage 0 0)).trace = some (a, b, n) ∧
      a = b ∧
      compareImages a b n = Except.ok { equivalent := true, mismatches := 0 }) ∧
    report (main (sampleEnv sampleImage 1 0)) = report (main (sampleEnv sampleImage 0 0)) := by
  refine ⟨⟨List.replicate 9 1, List.replicate 9 0, 9, ?_, by decide, rfl⟩,
    ⟨List.replicate 9 0, List.replicate 9 0, 9, ?_, rfl, rfl⟩, ?_⟩
  · simp [main, compareCall, sampleEnv, sampleImage, calloc, wrapInt32, fillEngine]
  · simp [main, compareCall, sampleEnv, sampleImage, calloc, wrapInt32, fillEngine]
  · simp [report, main, messages, sampleEnv]

/-- C5, amended: `main` calls `compareImages` once, on the two buffers the engines wrote
and the element count, and uses nothing it returns; the messages `main` prints and its
exit status are determined by the two measured durations alone, so they are the same
whether the two buffers differ or not. -/
theorem report_depends_on_durations_only (env1 env2 : Env)
    (hc : cudatime env1 = cudatime env2) (hs : seqtime env1 = seqtime env2) :
    occurrences Event.isCompare (main env1).trace = 1 ∧
    report (main env1) = report (main env2) ∧
    cudaCall (main env1).trace = some (freshBuffer env1, decoded env1) ∧
    seqCall (main env1).trace = some (freshBuffer env1, decoded env1) ∧
    compareCall (main env1).trace =
      some ((env1.cuda_edge_detection (freshBuffer env1) (decoded env1)).1,
        (env1.seq_edge_detection (freshBuffer env1) (decoded env1)).1, elements env1) := by
  unfold cudatime at hc
  unfold seqtime at hs
  refine ⟨?_, ?_, rfl, rfl, rfl⟩
  · simp [main, occurrences, Event.isCompare]
  · simp [report, main, messages, hc, hs]

/-- Witness for the amended C5: a run with differing buffers and one with identical
buffers. -/
theorem report_depends_on_durations_only_witness :
    cudatime (sampleEnv sampleImage 1 0) = cudatime (sampleEnv sampleImage 0 0) ∧
    seqtime (sampleEnv sampleImage 1 0) = seqtime (sampleEnv sampleImage 0 0) ∧
    report (main (sampleEnv sampleImage 1 0)) = report (main (sampleEnv sampleImage 0 0)) :=
  ⟨rfl, rfl,
    (report_depends_on_durations_only (sampleEnv sampleImage 1 0) (sampleEnv sampleImage 0 0)
      rfl rfl).2.1⟩

/-! ## What each engine is handed -/

/-- C8, as stated, fails: for a decoded image of 65535×65535 pixels the product of the
dimensions does not fit an `int`, `elements` is negative, and each engine is handed a
buffer with no cells instead of `W * H` zeros. -/
theorem huge_image_gets_no_cells :
    (decoded (sampleEnv hugeImage 1 0)).cols * (decoded (sampleEnv hugeImage 1 0)).rows
      = 4294836225 ∧
    elements (sampleEnv hugeImage 1 0) = -131071 ∧
    cudaCall (main (sampleEnv hugeImage 1 0)).trace = some ([], hugeImage) ∧
    seqCall (main (sampleEnv hugeImage 1 0)).trace = some ([], hugeImage) := by
  refine ⟨by decide, by decide, ?_, ?_⟩
  · simp [main, cudaCall, sampleEnv, hugeImage, calloc, wrapInt32]
  · simp [main, seqCall, sampleEnv, hugeImage, calloc, wrapInt32]

/-- C8, amended: for a decoded image with `W * H ≤ 2^31 - 1` the two engines receive
equal arguments held in separate variables: `cuda_edge_detection` gets `cuda_src` and
`cuda_image`, `seq_edge_detection` gets `seq_src` and `seq_image`, each buffer is `W * H`
zeros and each image equals the decoded image.  For every decoded image, of any size,
the parallel engine is called before the sequential one, on variables of its own, and
whatever it does with its buffer and image, the call of the sequential engine, its
arguments and the decoded image stay the same. -/
theorem engines_get_equal_separate_inputs (env : Env) :
    ((decoded env).cols * (decoded env).rows ≤ 2 ^ 31 - 1 →
      (main env).trace[firstAt Event.isCuda (main env).trace]? =
        some (Event.cuda_edge_detection
          Var.cuda_src (List.replicate ((decoded env).cols * (decoded env).rows) 0)
          Var.cuda_image (decoded env)) ∧
      (main env).trace[firstAt Event.isSeq (main env).trace]? =
        some (Event.seq_edge_detection
          Var.seq_src (List.replicate ((decoded env).cols * (decoded env).rows) 0)
          Var.seq_image (decoded env))) ∧
    (main env).trace[firstAt Event.isCuda (main env).trace]? =
      some (Event.cuda_edge_detection Var.cuda_src (freshBuffer env)
        Var.cuda_image (decoded env)) ∧
    (main env).trace[firstAt Event.isSeq (main env).trace]? =
      some (Event.seq_edge_detection Var.seq_src (freshBuffer env)
        Var.seq_image (decoded env)) ∧
    firstAt Event.isCuda (main env).trace < firstAt Event.isSeq (main env).trace ∧
    (main env).src = decoded env ∧
    ∀ (f : Buf → Mat → Buf × Mat) (hf : ∀ b m, (f b m).1.length = b.length),
      (main { env with cuda_edge_detection := f, cuda_size := hf }).trace[
          firstAt Event.isSeq
            (main { env with cuda_edge_detection := f, cuda_size := hf }).trace]? =
        (main env).trace[firstAt Event.isSeq (main env).trace]? ∧
      seqCall (main { env with cuda_edge_detection := f, cuda_size := hf }).trace =
        seqCall (main env).trace ∧
      (main { env with cuda_edge_detection := f, cuda_size := hf }).src = (main env).src := by
  have h1 : (main env).trace[firstAt Event.isCuda (main env).trace]? =
      some (Event.cuda_edge_detection Var.cuda_src (freshBuffer env)
        Var.cuda_image (decoded env)) := by
    simp [main, firstAt, Event.isCuda, freshBuffer, elements, decoded]
  have h2 : ∀ e : Env, (main e).trace[firstAt Event.isSeq (main e).trace]? =
      some (Event.seq_edge_detection Var.seq_src (freshBuffer e)
        Var.seq_image (decoded e)) := by
    intro e
    simp [main, firstAt, Event.isSeq, freshBuffer, elements, decoded]
  refine ⟨?_, h1, h2 env, ?_, rfl, fun f hf => ⟨?_, rfl, rfl⟩⟩
  · intro h
    have hb := freshBuffer_eq env h
    have h3 := h2 env
    rw [hb] at h1 h3
    exact ⟨h1, h3⟩
  · simp [main, firstAt, Event.isCuda, Event.isSeq]
  · rw [h2, h2]
    rfl

/-- Witness for the amended C8: the 3×3 sample image. -/
theorem engines_get_equal_separate_inputs_witness :
    (decoded (sampleEnv sampleImage 1 0)).cols * (decoded (sampleEnv sampleImage 1 0)).rows
      ≤ 2 ^ 31 - 1 ∧
    (main (sampleEnv sampleImage 1 0)).trace[
        firstAt Event.isSeq (main (sampleEnv sampleImage 1 0)).trace]? =
      some (Event.seq_edge_detection
        Var.seq_src (List.replicate ((decoded (sampleEnv sampleImage 1 0)).cols *
          (decoded (sampleEnv sampleImage 1 0)).rows) 0)
        Var.seq_image (decoded (sampleEnv sampleImage 1 0))) :=
  ⟨by decide,
    ((engines_get_equal_separate_inputs (sampleEnv sampleImage 1 0)).1 (by decide)).2⟩

/-! ## The lifecycle of the parallel execution domain -/

/-- C10, as stated, fails: on a run the only calls into the parallel execution domain are
`init_cuda` and the one call of `cuda_edge_detection`; no such call, hence no teardown,
follows the engine call, and the run ends with the two `free` calls. -/
theorem no_teardown_on_sample_run :
    (main (sampleEnv sampleImage 1 0)).trace.filter Event.isParallelDomain =
      [Event.init_cuda,
       Event.cuda_edge_detection Var.cuda_src (List.replicate 9 0) Var.cuda_image sampleImage] ∧
    ((main (sampleEnv sampleImage 1 0)).trace.drop
        (firstAt Event.isCuda (main (sampleEnv sampleImage 1 0)).trace + 1)).filter
      Event.isParallelDomain = [] ∧
    (main (sampleEnv sampleImage 1 0)).trace.drop 24 =
      [Event.getchar, Event.printf "Done\n" none, Event.free Var.seq_src,
       Event.free Var.cuda_src] := by
  refine ⟨?_, ?_, ?_⟩
  · simp [main, Event.isParallelDomain, sampleEnv, sampleImage, calloc, wrapInt32]
  · simp [main, firstAt, Event.isCuda, Event.isParallelDomain]
  · simp [main]

/-- C10, amended: on every run `init_cuda` is called exactly once, before the only call
of `cuda_edge_detection`; no call into the parallel execution domain follows that call,
so there is no teardown step, and the last calls of the run free the two host buffers. -/
theorem init_once_before_engine_no_teardown (env : Env) :
    occurrences Event.isInitCuda (main env).trace = 1 ∧
    occurrences Event.isCuda (main env).trace = 1 ∧
    firstAt Event.isInitCuda (main env).trace < firstAt Event.isCuda (main env).trace ∧
    ((main env).trace.drop (firstAt Event.isCuda (main env).trace + 1)).filter
      Event.isParallelDomain = [] ∧
    (main env).trace.drop 26 = [Event.free Var.seq_src, Event.free Var.cuda_src] := by
  refine ⟨?_, ?_, ?_, ?_, ?_⟩
  · simp [main, occurrences, Event.isInitCuda]
  · simp [main, occurrences, Event.isCuda]
  · simp [main, firstAt, Event.isInitCuda, Event.isCuda]
  · simp [main, firstAt, Event.isCuda, Event.isParallelDomain]
  · simp [main]

/-! ## The two engines agree -/

lemma length_applyWrites (ws : List (Nat × Int)) (b : Buf) :
    (applyWrites b ws).length = b.length := by
  induction ws generalizing b with
  | nil => rfl
  | cons w ws ih =>
    show (applyWrites (b.set w.1 w.2) ws).length = b.length
    rw [ih, List.length_set]

/-- After a list of writes that all store `F k` in cell `k`, a written cell holds `F` of
its index and every other cell is as before. -/
lemma getElem?_applyWrites (F : Nat → Int) (ws : List (Nat × Int))
    (hws : ∀ w ∈ ws, w.2 = F w.1) (b : Buf) (i : Nat) :
    (applyWrites b ws)[i]? =
      if i ∈ ws.map Prod.fst then (if i < b.length then some (F i) else none) else b[i]? := by
  induction ws generalizing b with
  | nil => simp [applyWrites]
  | cons w ws ih =>
    have hw : w.2 = F w.1 := hws w (List.mem_cons_self _ _)
    have hrest : ∀ v ∈ ws, v.2 = F v.1 := fun v hv => hws v (List.mem_cons_of_mem _ hv)
    show (applyWrites (b.set w.1 w.2) ws)[i]? = _
    rw [ih hrest, List.length_set, List.getElem?_set, hw]
    by_cases h1 : i ∈ ws.map Prod.fst
    · simp [h1]
    · by_cases h2 : w.1 = i
      · subst h2
        simp [h1]
      · have h3 : ¬ i = w.1 := fun h => h2 h.symm
        simp [h1, h2, h3]

lemma foldl_flatMap_eq {α β γ : Type} (f : γ → β → γ) (g : α → List β) (l : List α) (c : γ) :
    (l.flatMap g).foldl f c = l.foldl (fun c a => (g a).foldl f c) c := by
  induction l generalizing c with
  | nil => rfl
  | cons a l ih => simp [List.flatMap_cons, List.foldl_append, ih]

lemma seq_eq_applyWrites (op : Operator) (buf : Buf) (img : Mat) :
    (seq_edge_detection op buf img).1 = applyWrites buf (seqWrites op img) := by
  unfold seq_edge_detection applyWrites seqWrites
  rw [foldl_flatMap_eq]
  simp only [List.foldl_map]

lemma runUnit_eq (op : Operator) (t : Tiling) (img : Mat) (b : Buf) (u : ExecUnit) :
    runUnit op t img b u = (unitWrites op t img u).foldl (fun b w => b.set w.1 w.2) b := by
  unfold runUnit unitWrites
  split <;> rfl

lemma cuda_eq_applyWrites (op : Operator) (t : Tiling) (schedule : List ExecUnit)
    (buf : Buf) (img : Mat) :
    (cuda_edge_detection op t schedule buf img).1 =
      applyWrites buf (schedule.flatMap (unitWrites op t img)) := by
  have hrun : runUnit op t img =
      fun b u => (unitWrites op t img u).foldl (fun b w => b.set w.1 w.2) b :=
    funext fun b => funext fun u => runUnit_eq op t img b u
  unfold cuda_edge_detection applyWrites
  rw [foldl_flatMap_eq, hrun]

lemma cellAt_index (op : Operator) (img : Mat) (x y : Nat) (hx : x < img.cols) :
    cellAt op img (y * img.cols + x) = cellValue op img x y := by
  have hW : 0 < img.cols := by omega
  unfold cellAt
  rw [Nat.add_comm, Nat.add_mul_mod_self_right, Nat.mod_eq_of_lt hx,
    Nat.add_mul_div_right _ _ hW, Nat.div_eq_of_lt hx, Nat.zero_add]

lemma seqWrites_consistent (op : Operator) (img : Mat) :
    ∀ w ∈ seqWrites op img, w.2 = cellAt op img w.1 := by
  intro w hw
  simp only [seqWrites, List.mem_flatMap, List.mem_map, List.mem_range] at hw
  obtain ⟨y, _, x, hx, rfl⟩ := hw
  exact (cellAt_index op img x y hx).symm

lemma unitWrites_consistent (op : Operator) (t : Tiling) (img : Mat)
    (schedule : List ExecUnit) :
    ∀ w ∈ schedule.flatMap (unitWrites op t img), w.2 = cellAt op img w.1 := by
  intro w hw
  simp only [List.mem_flatMap] at hw
  obtain ⟨u, _, hu⟩ := hw
  unfold unitWrites at hu
  split at hu
  · rename_i hg
    simp only [List.mem_singleton] at hu
    subst hu
    exact (cellAt_index op img _ _ hg.1).symm
  · simp at hu

lemma index_split (W i : Nat) : i / W * W + i % W = i := by
  rw [Nat.mul_comm]
  exact Nat.div_add_mod i W

lemma div_lt_of_lt_mul_cols (W H i : Nat) (h : i < W * H) : i / W < H := by
  have hW : 0 < W := by
    rcases Nat.eq_zero_or_pos W with h0 | h0
    · subst h0; simp at h
    · exact h0
  rw [Nat.div_lt_iff_lt_mul hW, Nat.mul_comm]
  exact h

lemma mem_seqWrites (op : Operator) (img : Mat) (i : Nat) (h : i < img.cols * img.rows) :
    i ∈ (seqWrites op img).map Prod.fst := by
  have hW : 0 < img.cols := by
    rcases Nat.eq_zero_or_pos img.cols with h0 | h0
    · rw [h0] at h; simp at h
    · exact h0
  simp only [seqWrites, List.mem_map, List.mem_flatMap, List.mem_range]
  exact ⟨(i, cellValue op img (i % img.cols) (i / img.cols)),
    ⟨i / img.cols, div_lt_of_lt_mul_cols _ _ _ h, i % img.cols, Nat.mod_lt _ hW,
      by rw [index_split]⟩, rfl⟩

lemma div_lt_tilesFor (n b x : Nat) (hb : 0 < b) (hx : x < n) : x / b < tilesFor n b := by
  unfold tilesFor
  rw [Nat.div_lt_iff_lt_mul hb]
  have h1 := Nat.div_add_mod (n + b - 1) b
  have h2 := Nat.mod_lt (n + b - 1) hb
  rw [Nat.mul_comm] at h1
  omega

lemma mem_units (t : Tiling) (W H x y : Nat) (hbx : 0 < t.bx) (hby : 0 < t.by_)
    (hx : x < W) (hy : y < H) :
    ({ blockX := x / t.bx, blockY := y / t.by_, threadX := x % t.bx, threadY := y % t.by_ }
      : ExecUnit) ∈ units t W H := by
  simp only [units, List.mem_flatMap, List.mem_map, List.mem_range]
  exact ⟨y / t.by_, div_lt_tilesFor _ _ _ hby hy, x / t.bx, div_lt_tilesFor _ _ _ hbx hx,
    y % t.by_, Nat.mod_lt _ hby, x % t.bx, Nat.mod_lt _ hbx, rfl⟩

lemma mem_cudaWrites (op : Operator) (t : Tiling) (schedule : List ExecUnit) (img : Mat)
    (hbx : 0 < t.bx) (hby : 0 < t.by_)
    (hs : List.Perm schedule (units t img.cols img.rows))
    (i : Nat) (h : i < img.cols * img.rows) :
    i ∈ (schedule.flatMap (unitWrites op t img)).map Prod.fst := by
  have hW : 0 < img.cols := by
    rcases Nat.eq_zero_or_pos img.cols with h0 | h0
    · rw [h0] at h; simp at h
    · exact h0
  have hx : i % img.cols < img.cols := Nat.mod_lt _ hW
  have hy : i / img.cols < img.rows := div_lt_of_lt_mul_cols _ _ _ h
  have hu := hs.mem_iff.mpr (mem_units t img.cols img.rows _ _ hbx hby hx hy)
  have hux : ExecUnit.x t (ExecUnit.mk (i % img.cols / t.bx) (i / img.cols / t.by_)
      (i % img.cols % t.bx) (i / img.cols % t.by_)) = i % img.cols :=
    index_split _ _
  have huy : ExecUnit.y t (ExecUnit.mk (i % img.cols / t.bx) (i / img.cols / t.by_)
      (i % img.cols % t.bx) (i / img.cols % t.by_)) = i / img.cols :=
    index_split _ _
  simp only [List.mem_map, List.mem_flatMap]
  refine ⟨(i, cellValue op img (i % img.cols) (i / img.cols)), ⟨_, hu, ?_⟩, rfl⟩
  unfold unitWrites
  rw [hux, huy, if_pos ⟨hx, hy⟩, index_split]
  exact List.mem_singleton.mpr rfl

/-- C1: for every image `I` of width `W` and height `H`, every gradient operator, every
tile size and every order in which the execution units run, the buffer written by
`seq_edge_detection` and the buffer written by `cuda_edge_detection`, each started from
`W * H` zeroed cells and the image `I`, both have `W * H` cells and hold the same value,
the operator's value for that pixel, at every index below `W * H`; both leave the image
as it is. -/
theorem engines_agree (op : Operator) (t : Tiling) (schedule : List ExecUnit) (I : Mat)
    (hbx : 0 < t.bx) (hby : 0 < t.by_)
    (hs : List.Perm schedule (units t I.cols I.rows)) :
    (seq_edge_detection op (List.replicate (I.cols * I.rows) 0) I).1.length
      = I.cols * I.rows ∧
    (cuda_edge_detection op t schedule (List.replicate (I.cols * I.rows) 0) I).1.length
      = I.cols * I.rows ∧
    (∀ i, i < I.cols * I.rows →
      (seq_edge_detection op (List.replicate (I.cols * I.rows) 0) I).1[i]? =
        some (cellValue op I (i % I.cols) (i / I.cols)) ∧
      (cuda_edge_detection op t schedule (List.replicate (I.cols * I.rows) 0) I).1[i]? =
        (seq_edge_detection op (List.replicate (I.cols * I.rows) 0) I).1[i]?) ∧
    (seq_edge_detection op (List.replicate (I.cols * I.rows) 0) I).2 = I ∧
    (cuda_edge_detection op t schedule (List.replicate (I.cols * I.rows) 0) I).2 = I := by
  refine ⟨?_, ?_, ?_, rfl, rfl⟩
  · rw [seq_eq_applyWrites, length_applyWrites, List.length_replicate]
  · rw [cuda_eq_applyWrites, length_applyWrites, List.length_replicate]
  · intro i hi
    have h1 : (seq_edge_detection op (List.replicate (I.cols * I.rows) 0) I).1[i]? =
        some (cellAt op I i) := by
      rw [seq_eq_applyWrites,
        getElem?_applyWrites (cellAt op I) _ (seqWrites_consistent op I),
        if_pos (mem_seqWrites op I i hi), List.length_replicate, if_pos hi]
    have h2 : (cuda_edge_detection op t schedule (List.replicate (I.cols * I.rows) 0) I).1[i]?
        = some (cellAt op I i) := by
      rw [cuda_eq_applyWrites,
        getElem?_applyWrites (cellAt op I) _ (unitWrites_consistent op t I schedule),
        if_pos (mem_cudaWrites op t schedule I hbx hby hs i hi), List.length_replicate,
        if_pos hi]
    exact ⟨h1, h2.trans h1.symm⟩

/-- Witness for C1: the 3×3 sample image under the Sobel-like operator, with 2×2 tiles
run in reverse order. -/
theorem engines_agree_witness :
    0 < (Tiling.mk 2 2).bx ∧ 0 < (Tiling.mk 2 2).by_ ∧
    List.Perm (units (Tiling.mk 2 2) sampleImage.cols sampleImage.rows).reverse
      (units (Tiling.mk 2 2) sampleImage.cols sampleImage.rows) ∧
    (cuda_edge_detection sampleOperator (Tiling.mk 2 2)
        (units (Tiling.mk 2 2) sampleImage.cols sampleImage.rows).reverse
        (List.replicate (sampleImage.cols * sampleImage.rows) 0) sampleImage).1.length
      = sampleImage.cols * sampleImage.rows :=
  ⟨by decide, by decide, List.reverse_perm _,
    (engines_agree sampleOperator (Tiling.mk 2 2)
      (units (Tiling.mk 2 2) sampleImage.cols sampleImage.rows).reverse sampleImage
      (by decide) (by decide) (List.reverse_perm _)).2.1⟩

end SobelDriver
